import Mathlib

/-!
Verification of the `StoryTrackEditor` timeline editor of the voicebox
repository (src/app/src/components/StoriesTab/StoryTrackEditor.tsx),
as a shallow embedding in Lean 4.

JavaScript numbers are modelled as rationals (`ℚ`); integer-valued
quantities (`start_time_ms`, `track`, trim offsets) as `ℤ`.
`Math.round` is `jsRound` (round half toward +∞), `Math.floor` is `⌊·⌋`.
-/

namespace Voicebox

/-- JS `Math.round`: rounds half-way cases toward +∞. -/
def jsRound (q : ℚ) : ℤ := ⌊q + 1/2⌋

theorem jsRound_nonneg {q : ℚ} (h : 0 ≤ q) : 0 ≤ jsRound q := by
  unfold jsRound
  exact Int.le_floor.mpr (by push_cast; linarith)

/-- Structure `StoryItemDetail` as the editor reads it: `duration` is float seconds,
trims are integer milliseconds (the code normalizes missing trims with
`|| 0`, so we model the already-normalized integer values). -/
structure StoryItemDetail where
  id : String
  track : ℤ
  start_time_ms : ℤ
  duration : ℚ
  trim_start_ms : ℤ
  trim_end_ms : ℤ
deriving Repr, DecidableEq

/-- Constants from the top of StoryTrackEditor.tsx. -/
def TRACK_HEIGHT : ℚ := 48

def MIN_PIXELS_PER_SECOND : ℚ := 10

def MAX_PIXELS_PER_SECOND : ℚ := 200

def DEFAULT_PIXELS_PER_SECOND : ℚ := 50

def DEFAULT_TRACKS : List ℤ := [1, 0, -1]

def MIN_EDITOR_HEIGHT : ℚ := 120

def MAX_EDITOR_HEIGHT : ℚ := 500

/-- Function `getEffectiveDuration`: `item.duration * 1000 - trim_start - trim_end`. -/
def getEffectiveDuration (item : StoryItemDetail) : ℚ :=
  item.duration * 1000 - item.trim_start_ms - item.trim_end_ms

/-- Mapping `msToPixels(ms) = (ms / 1000) * pixelsPerSecond`. -/
def msToPixels (pixelsPerSecond : ℚ) (ms : ℚ) : ℚ :=
  ms / 1000 * pixelsPerSecond

/-- Mapping `pixelsToMs(px) = (px / pixelsPerSecond) * 1000`. -/
def pixelsToMs (pixelsPerSecond : ℚ) (px : ℚ) : ℚ :=
  px / pixelsPerSecond * 1000

/-- Handler `handleZoomIn`: `pps ↦ min (pps * 1.5) MAX_PIXELS_PER_SECOND`. -/
def handleZoomIn (pps : ℚ) : ℚ :=
  min (pps * 1.5) MAX_PIXELS_PER_SECOND

/-- Handler `handleZoomOut`: `pps ↦ max (pps / 1.5) MIN_PIXELS_PER_SECOND`. -/
def handleZoomOut (pps : ℚ) : ℚ :=
  max (pps / 1.5) MIN_PIXELS_PER_SECOND

/-- Handler `handleResizeMove`: when resizing, the new editor height is
`startHeight + (startY - clientY)` clamped to `[120, 500]`;
when not resizing the event is ignored and the height is unchanged. -/
def handleResizeMove (isResizing : Bool) (startY startHeight clientY oldHeight : ℚ) : ℚ :=
  if isResizing then
    min MAX_EDITOR_HEIGHT (max MIN_EDITOR_HEIGHT (startHeight + (startY - clientY)))
  else oldHeight

/-- Track list of the editor: the union of `DEFAULT_TRACKS` and the tracks of
all items, deduplicated (a JS `Set`) and sorted descending
(`sort((a, b) => b - a)`, higher tracks on top). -/
def tracksOf (items : List StoryItemDetail) : List ℤ :=
  ((DEFAULT_TRACKS ++ items.map (·.track)).dedup).insertionSort (· ≥ ·)

/-- Derived `totalDurationMs`: 10000 for an empty clip list, otherwise the
maximum of `start_time_ms + effective duration` over all items, floored at
10000 (the code computes `Math.max(...map, 10000)`). -/
def totalDurationMs (items : List StoryItemDetail) : ℚ :=
  if items.length = 0 then 10000
  else items.foldr (fun i acc => max ((i.start_time_ms : ℚ) + getEffectiveDuration i) acc) 10000

/-- Payload of a move mutation (`useMoveStoryItem`). -/
structure MoveMutation where
  start_time_ms : ℤ
  track : ℤ
deriving Repr, DecidableEq

/-- Handler `handleDragEnd`: computes the drop time from the drag x position
(`max(0, round(pixelsToMs(x)))`), the drop track from the drag y position
(`floor(y / TRACK_HEIGHT)` clamped into the track list), and issues a move
mutation only when `(start_time_ms, track)` changed; otherwise none. -/
def handleDragEnd (pps : ℚ) (items : List StoryItemDetail)
    (draggingItem : Option String) (dragPos : ℚ × ℚ) : Option MoveMutation :=
  match draggingItem with
  | none => none
  | some itemId =>
    match items.find? (fun i => i.id == itemId) with
    | none => none
    | some item =>
      let tracks := tracksOf items
      let newTimeMs : ℤ := max 0 (jsRound (pixelsToMs pps dragPos.1))
      let trackIndex : ℤ := ⌊dragPos.2 / TRACK_HEIGHT⌋
      let clampedTrackIndex : ℤ := max 0 (min trackIndex (tracks.length - 1))
      let newTrack : ℤ := tracks.getD clampedTrackIndex.toNat 0
      if newTimeMs ≠ item.start_time_ms ∨ newTrack ≠ item.track then
        some ⟨newTimeMs, newTrack⟩
      else none

/-- Drop time computed by `handleDragEnd` from the drag x position:
`Math.max(0, Math.round(pixelsToMs(dragPosition.x)))`. -/
def dropTimeMs (pps : ℚ) (dragPosX : ℚ) : ℤ :=
  max 0 (jsRound (pixelsToMs pps dragPosX))

/-- Drop track computed by `handleDragEnd` from the drag y position:
`tracks[clamp(floor(y / TRACK_HEIGHT), 0, tracks.length - 1)] ?? 0`. -/
def dropTrack (items : List StoryItemDetail) (dragPosY : ℚ) : ℤ :=
  let tracks := tracksOf items
  tracks.getD (max 0 (min ⌊dragPosY / TRACK_HEIGHT⌋ (tracks.length - 1))).toNat 0

/-- Result of `handleSplit`: either an early return (no selected clip found),
a user-visible invalid-split toast with no request, or a single split
mutation carrying `split_time_ms`. -/
inductive SplitAction where
  | noSelection
  | invalidSplit
  | request (split_time_ms : ℚ)
deriving Repr, DecidableEq

/-- Handler `handleSplit`: computes
`splitTimeMs = currentTimeMs - item.start_time_ms`; reports an invalid-split
error (and sends nothing) when that is `≤ 0` or `≥` the effective duration,
otherwise issues one split mutation with exactly that offset. -/
def handleSplit (items : List StoryItemDetail) (selectedClipId : Option String)
    (currentTimeMs : ℚ) : SplitAction :=
  match selectedClipId with
  | none => .noSelection
  | some cid =>
    match items.find? (fun i => i.id == cid) with
    | none => .noSelection
    | some item =>
      let splitTimeMs := currentTimeMs - (item.start_time_ms : ℚ)
      let effectiveDuration := getEffectiveDuration item
      if splitTimeMs ≤ 0 ∨ splitTimeMs ≥ effectiveDuration then .invalidSplit
      else .request splitTimeMs

/-- The `onSuccess` callback of the split mutation runs
`setSelectedClipId(null)`: whatever clip was selected, the selection after a
successful split is cleared. -/
def splitOnSuccess (_selectedClipId : Option String) : Option String := none

/-- Side of a trim gesture: which handle was grabbed. -/
inductive TrimSide where
  | startSide
  | endSide
deriving Repr, DecidableEq

/-- Data captured by `handleTrimStart` in `trimStartItemRef`: the committed
trim values at gesture start and the original clip duration in ms. -/
structure TrimInit where
  initialTrimStart : ℤ
  initialTrimEnd : ℤ
  originalDurationMs : ℚ
deriving Repr, DecidableEq

/-- Handler `handleTrimMove` for one mousemove at `clientX`: converts the
pixel delta since `trimStartX` to ms, recomputes the moved trim value with
the double clamp (`max 0`, `min` against duration minus the other trim minus
100), rounds it, and stores the pair in `tempTrimValues` unless the sum
would reach `originalDurationMs - 100`, in which case the event is ignored
and the previous provisional pair is kept. -/
def handleTrimMove (pps : ℚ) (side : TrimSide) (trimStartX : ℚ) (init : TrimInit)
    (temp : Option (ℤ × ℤ)) (clientX : ℚ) : Option (ℤ × ℤ) :=
  let deltaX := clientX - trimStartX
  let deltaMs := pixelsToMs pps deltaX
  let d := init.originalDurationMs
  let newTrimStart : ℤ :=
    match side with
    | .startSide =>
        jsRound (max 0 (min ((init.initialTrimStart : ℚ) + deltaMs)
          (d - (init.initialTrimEnd : ℚ) - 100)))
    | .endSide => init.initialTrimStart
  let newTrimEnd : ℤ :=
    match side with
    | .startSide => init.initialTrimEnd
    | .endSide =>
        jsRound (max 0 (min ((init.initialTrimEnd : ℚ) - deltaMs)
          (d - (init.initialTrimStart : ℚ) - 100)))
  if ((newTrimStart : ℚ) + (newTrimEnd : ℚ)) ≥ d - 100 then temp
  else some (newTrimStart, newTrimEnd)

/-- Provisional trim values as rendered during a gesture: `tempTrimValues`
when set, else the committed values captured at gesture start. -/
def displayedTrim (init : TrimInit) (temp : Option (ℤ × ℤ)) : ℤ × ℤ :=
  temp.getD (init.initialTrimStart, init.initialTrimEnd)

/-- Payload of a trim mutation (`useTrimStoryItem`). -/
structure TrimMutation where
  trim_start_ms : ℤ
  trim_end_ms : ℤ
deriving Repr, DecidableEq

/-- Handler `handleTrimEnd`: takes `Math.round` of the provisional values
(falling back to the initial values) and issues a trim mutation only when
either value changed from its initial value. -/
def handleTrimEnd (init : TrimInit) (temp : Option (ℤ × ℤ)) : Option TrimMutation :=
  let finalTrimStart : ℤ := jsRound (((temp.map Prod.fst).getD init.initialTrimStart : ℤ) : ℚ)
  let finalTrimEnd : ℤ := jsRound (((temp.map Prod.snd).getD init.initialTrimEnd : ℤ) : ℚ)
  if finalTrimStart ≠ init.initialTrimStart ∨ finalTrimEnd ≠ init.initialTrimEnd then
    some ⟨finalTrimStart, finalTrimEnd⟩
  else none

/-- State of a whole trim gesture: `tempTrimValues` after folding
`handleTrimMove` over the sequence of mousemove x coordinates, starting from
`null`. -/
def trimGestureTemp (pps : ℚ) (side : TrimSide) (trimStartX : ℚ) (init : TrimInit)
    (moves : List ℚ) : Option (ℤ × ℤ) :=
  moves.foldl (handleTrimMove pps side trimStartX init) none

/-- Auto-scroll effect body: while playing, if the playhead is past the
viewport midpoint (`scrollLeft + containerWidth / 2`) the scroll offset is
set to `playheadLeft - containerWidth / 2`; otherwise it is unchanged. -/
def autoScrollStep (isCurrentlyPlaying : Bool) (containerWidth scrollLeft playheadLeft : ℚ) : ℚ :=
  if isCurrentlyPlaying then
    let halfwayPoint := scrollLeft + containerWidth / 2
    if playheadLeft > halfwayPoint then playheadLeft - containerWidth / 2
    else scrollLeft
  else scrollLeft

/-- Mutually exclusive interaction mode flags of the component:
`draggingItem`, `trimmingItem`, `isResizing`. -/
structure InteractionState where
  draggingItem : Option String
  trimmingItem : Option String
  isResizing : Bool
deriving Repr, DecidableEq

/-- The idle interaction state: no drag, no trim, no panel resize. -/
def idleState : InteractionState :=
  { draggingItem := none, trimmingItem := none, isResizing := false }

/-- Number of active interaction modes. -/
def modeCount (s : InteractionState) : ℕ :=
  (if s.draggingItem.isSome then 1 else 0) +
  (if s.trimmingItem.isSome then 1 else 0) +
  (if s.isResizing then 1 else 0)

/-- Pointer events the editor reacts to. Mousedown targets are the clip body
(`handleDragStart`), a trim handle (`handleTrimStart`) and the resize handle
(`handleResizeStart`); `up` is a mouse button release; `enterTracks` and
`leaveTracks` track whether the pointer is over the tracks container, whose
`onMouseLeave` ends a drag. -/
inductive PointerEvent where
  | downDragClip (itemId : String)
  | downTrimHandle (itemId : String) (side : TrimSide)
  | downResizeHandle
  | up
  | enterTracks
  | leaveTracks
deriving Repr, DecidableEq

/-- Full pointer configuration: interaction mode flags plus the physical
mouse-button state and whether the pointer is over the tracks container. -/
structure PointerConfig where
  st : InteractionState
  buttonDown : Bool
  insideTracks : Bool
deriving Repr, DecidableEq

/-- Which pointer events the browser can deliver in a configuration: a
mousedown requires the button to be up (and, for targets inside the tracks
container, the pointer inside it), a mouseup requires the button down, and
enter/leave events require the pointer outside/inside respectively. -/
def legalEvent (c : PointerConfig) : PointerEvent → Bool
  | .downDragClip _ => !c.buttonDown && c.insideTracks
  | .downTrimHandle _ _ => !c.buttonDown && c.insideTracks
  | .downResizeHandle => !c.buttonDown
  | .up => c.buttonDown
  | .enterTracks => !c.insideTracks
  | .leaveTracks => c.insideTracks

/-- Transition function assembled from the event handlers: each mousedown
handler sets its own mode flag (none of them checks the other flags); on
mouseup every mode-specific listener that is attached fires
(`handleDragEnd` via the container when the pointer is inside it,
`handleTrimEnd` and `handleResizeEnd` via window listeners) and clears its
flag; `onMouseLeave` of the tracks container, attached only while dragging,
runs `handleDragEnd`. -/
def stepConfig (c : PointerConfig) : PointerEvent → PointerConfig
  | .downDragClip itemId =>
      { c with st := { c.st with draggingItem := some itemId }, buttonDown := true }
  | .downTrimHandle itemId _ =>
      { c with st := { c.st with trimmingItem := some itemId }, buttonDown := true }
  | .downResizeHandle =>
      { c with st := { c.st with isResizing := true }, buttonDown := true }
  | .up =>
      { c with
        st := { draggingItem := if c.insideTracks then none else c.st.draggingItem
              , trimmingItem := none
              , isResizing := false }
        buttonDown := false }
  | .enterTracks => { c with insideTracks := true }
  | .leaveTracks =>
      { c with st := { c.st with draggingItem := none }, insideTracks := false }

/-- Configurations reachable from an idle start through legal pointer
events. -/
inductive Reachable : PointerConfig → Prop where
  | init (inside : Bool) :
      Reachable { st := idleState, buttonDown := false, insideTracks := inside }
  | step {c : PointerConfig} (e : PointerEvent) :
      Reachable c → legalEvent c e = true → Reachable (stepConfig c e)

/-- Timeline view data computed by the render body. -/
structure TimelineView where
  tracks : List ℤ
  totalMs : ℚ
  timelineWidth : ℚ
  tracksAreaHeight : ℚ
deriving Repr, DecidableEq

/-- Render function of `StoryTrackEditor`: returns `null` (none) when the
story has no clips, otherwise the timeline view with its derived layout
data (`contentWidth = totalDurationMs / 1000 * pps + 200`, widened to the
container width; `tracksAreaHeight = tracks.length * TRACK_HEIGHT`). -/
def storyTrackEditorView (pps containerWidth : ℚ) (items : List StoryItemDetail) :
    Option TimelineView :=
  if items.length = 0 then none
  else
    some
      { tracks := tracksOf items
      , totalMs := totalDurationMs items
      , timelineWidth := max (totalDurationMs items / 1000 * pps + 200) containerWidth
      , tracksAreaHeight := (tracksOf items).length * TRACK_HEIGHT }

/-! Helper lemmas. -/

theorem jsRound_intCast (z : ℤ) : jsRound (z : ℚ) = z := by
  unfold jsRound
  rw [Int.floor_int_add]
  norm_num

/-- Well-formedness of a provisional trim pair: both values non-negative and
strictly more than 100ms of effective duration left. -/
def TempOK (init : TrimInit) (temp : Option (ℤ × ℤ)) : Prop :=
  ∀ p : ℤ × ℤ, temp = some p →
    0 ≤ p.1 ∧ 0 ≤ p.2 ∧ (p.1 : ℚ) + (p.2 : ℚ) < init.originalDurationMs - 100

theorem handleTrimMove_tempOK {pps trimStartX : ℚ} {side : TrimSide} {init : TrimInit}
    (h0 : 0 ≤ init.initialTrimStart) (h1 : 0 ≤ init.initialTrimEnd)
    {temp : Option (ℤ × ℤ)} (hT : TempOK init temp) (clientX : ℚ) :
    TempOK init (handleTrimMove pps side trimStartX init temp clientX) := by
  intro p hp
  cases side <;>
  · simp only [handleTrimMove] at hp
    split at hp
    · exact hT p hp
    · next hguard =>
      cases hp
      push_neg at hguard
      refine ⟨?_, ?_, by exact_mod_cast hguard⟩
      · first
        | exact jsRound_nonneg (le_max_left 0 _)
        | exact h0
      · first
        | exact jsRound_nonneg (le_max_left 0 _)
        | exact h1

theorem trimGestureTemp_tempOK {pps trimStartX : ℚ} {side : TrimSide} {init : TrimInit}
    (h0 : 0 ≤ init.initialTrimStart) (h1 : 0 ≤ init.initialTrimEnd) (moves : List ℚ) :
    TempOK init (trimGestureTemp pps side trimStartX init moves) := by
  unfold trimGestureTemp
  have key : ∀ (ms : List ℚ) (temp : Option (ℤ × ℤ)), TempOK init temp →
      TempOK init (ms.foldl (handleTrimMove pps side trimStartX init) temp) := by
    intro ms
    induction ms with
    | nil => intro temp h; exact h
    | cons x xs ih =>
      intro temp h
      exact ih _ (handleTrimMove_tempOK h0 h1 h x)
  exact key moves none (fun p hp => by cases hp)

theorem handleTrimEnd_some {init : TrimInit} {temp : Option (ℤ × ℤ)} {m : TrimMutation}
    (h : handleTrimEnd init temp = some m) :
    ∃ p, temp = some p ∧ m.trim_start_ms = p.1 ∧ m.trim_end_ms = p.2 := by
  cases temp with
  | none =>
    exfalso
    simp only [handleTrimEnd, Option.map_none', Option.getD_none, jsRound_intCast,
      ne_eq, not_true_eq_false, or_self, if_false] at h
    exact Option.noConfusion h
  | some p =>
    refine ⟨p, rfl, ?_⟩
    simp only [handleTrimEnd, Option.map_some', Option.getD_some, jsRound_intCast] at h
    split at h
    · cases h
      exact ⟨rfl, rfl⟩
    · exact Option.noConfusion h

theorem tracksOf_ne_nil (items : List StoryItemDetail) : tracksOf items ≠ [] := by
  have h1 : (1 : ℤ) ∈ tracksOf items := by
    unfold tracksOf
    rw [List.mem_insertionSort, List.mem_dedup]
    simp [DEFAULT_TRACKS]
  intro hnil
  rw [hnil] at h1
  exact List.not_mem_nil _ h1

theorem handleDragEnd_payload {pps : ℚ} {items : List StoryItemDetail}
    {draggingItem : Option String} {dragPos : ℚ × ℚ} {m : MoveMutation}
    (h : handleDragEnd pps items draggingItem dragPos = some m) :
    0 ≤ m.start_time_ms ∧ m.track ∈ tracksOf items := by
  cases draggingItem with
  | none => exact Option.noConfusion h
  | some itemId =>
    cases hfind : items.find? (fun i => i.id == itemId) with
    | none =>
      rw [handleDragEnd, hfind] at h
      exact Option.noConfusion h
    | some item =>
      rw [handleDragEnd, hfind] at h
      dsimp only at h
      split at h
      · cases h
        refine ⟨le_max_left 0 _, ?_⟩
        have hlen : 0 < (tracksOf items).length :=
          List.length_pos.mpr (tracksOf_ne_nil items)
        set ti : ℤ := ⌊dragPos.2 / TRACK_HEIGHT⌋ with hti
        have hub : max 0 (min ti ((tracksOf items).length - 1)) ≤
            ((tracksOf items).length : ℤ) - 1 :=
          max_le (by omega) (min_le_right _ _)
        have hlb : (0 : ℤ) ≤ max 0 (min ti ((tracksOf items).length - 1)) := le_max_left 0 _
        have hidx : (max 0 (min ti ((tracksOf items).length - 1))).toNat <
            (tracksOf items).length := by omega
        rw [List.getD_eq_getElem _ _ hidx]
        exact List.getElem_mem _
      · exact Option.noConfusion h

/-- Invariant of the pointer configuration: when the button is up the state
is idle, a drag can only be live while the pointer is inside the tracks
container, and at most one mode is ever active. -/
def ConfigInv (c : PointerConfig) : Prop :=
  (c.buttonDown = false → c.st = idleState) ∧
  (c.st.draggingItem.isSome = true → c.insideTracks = true) ∧
  modeCount c.st ≤ 1

theorem reachable_configInv {c : PointerConfig} (h : Reachable c) : ConfigInv c := by
  induction h with
  | init inside =>
    exact ⟨fun _ => rfl, fun hd => by simp [idleState] at hd, by simp [modeCount, idleState]⟩
  | @step c' e hr hl ih =>
    obtain ⟨ihb, ihd, ihm⟩ := ih
    cases e with
    | downDragClip itemId =>
      simp only [legalEvent, Bool.and_eq_true, Bool.not_eq_true'] at hl
      have hidle := ihb hl.1
      refine ⟨fun hb => by simp [stepConfig] at hb, fun _ => hl.2, ?_⟩
      simp [stepConfig, hidle, modeCount, idleState]
    | downTrimHandle itemId side =>
      simp only [legalEvent, Bool.and_eq_true, Bool.not_eq_true'] at hl
      have hidle := ihb hl.1
      refine ⟨fun hb => by simp [stepConfig] at hb, ?_, ?_⟩
      · intro hd
        simp only [stepConfig, hidle, idleState] at hd
        simp at hd
      · simp [stepConfig, hidle, modeCount, idleState]
    | downResizeHandle =>
      simp only [legalEvent, Bool.not_eq_true'] at hl
      have hidle := ihb hl
      refine ⟨fun hb => by simp [stepConfig] at hb, ?_, ?_⟩
      · intro hd
        simp only [stepConfig, hidle, idleState] at hd
        simp at hd
      · simp [stepConfig, hidle, modeCount, idleState]
    | up =>
      have hdrag : c'.insideTracks = false → c'.st.draggingItem = none := by
        intro hin
        cases hd : c'.st.draggingItem with
        | none => rfl
        | some _ =>
          have := ihd (by simp [hd])
          rw [this] at hin
          exact Bool.noConfusion hin
      by_cases hin : c'.insideTracks = true
      · refine ⟨fun _ => by simp [stepConfig, hin, idleState], ?_, ?_⟩
        · intro hd
          simp [stepConfig, hin] at hd
        · simp [stepConfig, hin, modeCount]
      · have hin' : c'.insideTracks = false := by
          cases hb : c'.insideTracks
          · rfl
          · exact absurd hb hin
        have hnone := hdrag hin'
        refine ⟨fun _ => by simp [stepConfig, hin', hnone, idleState], ?_, ?_⟩
        · intro hd
          simp [stepConfig, hin', hnone] at hd
        · simp [stepConfig, hin', hnone, modeCount]
    | enterTracks =>
      exact ⟨fun hb => ihb hb, fun _ => rfl, ihm⟩
    | leaveTracks =>
      refine ⟨?_, ?_, ?_⟩
      · intro hb
        have hidle := ihb hb
        simp [stepConfig, hidle, idleState]
      · intro hd
        simp [stepConfig] at hd
      · refine le_trans ?_ ihm
        simp only [stepConfig, modeCount, Option.isSome_none]
        simp only [Bool.false_eq_true, if_false]
        omega

/-! Claim theorems. -/

/-- C1: For every clip and every trim gesture (any sequence of pointer moves
of either handle, however far the pointer is dragged), the trim values that
result — both the provisional values shown during the gesture
(`displayedTrim`) and the values committed on release (`handleTrimEnd`) —
satisfy `trim_start_ms + trim_end_ms ≤ duration_ms - 100` and neither trim
value is negative, so at least 100ms of effective duration always remains.
The hypotheses state the data-model invariant for the committed values the
gesture starts from. -/
theorem trim_gesture_invariant (pps trimStartX : ℚ) (side : TrimSide) (init : TrimInit)
    (moves : List ℚ)
    (h0 : 0 ≤ init.initialTrimStart) (h1 : 0 ≤ init.initialTrimEnd)
    (h2 : (init.initialTrimStart : ℚ) + (init.initialTrimEnd : ℚ) ≤
      init.originalDurationMs - 100) :
    (0 ≤ (displayedTrim init (trimGestureTemp pps side trimStartX init moves)).1 ∧
     0 ≤ (displayedTrim init (trimGestureTemp pps side trimStartX init moves)).2 ∧
     ((displayedTrim init (trimGestureTemp pps side trimStartX init moves)).1 : ℚ) +
       ((displayedTrim init (trimGestureTemp pps side trimStartX init moves)).2 : ℚ) ≤
       init.originalDurationMs - 100) ∧
    (∀ m : TrimMutation,
      handleTrimEnd init (trimGestureTemp pps side trimStartX init moves) = some m →
      0 ≤ m.trim_start_ms ∧ 0 ≤ m.trim_end_ms ∧
      (m.trim_start_ms : ℚ) + (m.trim_end_ms : ℚ) ≤ init.originalDurationMs - 100) := by
  have hT := @trimGestureTemp_tempOK pps trimStartX side init h0 h1 moves
  constructor
  · cases htemp : trimGestureTemp pps side trimStartX init moves with
    | none =>
      simpa [displayedTrim] using ⟨h0, h1, h2⟩
    | some p =>
      have hp := hT p htemp
      simpa [displayedTrim] using ⟨hp.1, hp.2.1, le_of_lt hp.2.2⟩
  · intro m hm
    obtain ⟨p, hp, hs, he⟩ := handleTrimEnd_some hm
    have hq := hT p hp
    rw [hs, he]
    exact ⟨hq.1, hq.2.1, le_of_lt hq.2.2⟩

theorem trim_gesture_invariant_witness :
    0 ≤ (displayedTrim ⟨500, 300, 5000⟩ (trimGestureTemp 50 .startSide 0 ⟨500, 300, 5000⟩ [10])).1 ∧
    0 ≤ (displayedTrim ⟨500, 300, 5000⟩ (trimGestureTemp 50 .startSide 0 ⟨500, 300, 5000⟩ [10])).2 ∧
    ((displayedTrim ⟨500, 300, 5000⟩ (trimGestureTemp 50 .startSide 0 ⟨500, 300, 5000⟩ [10])).1 : ℚ) +
      ((displayedTrim ⟨500, 300, 5000⟩ (trimGestureTemp 50 .startSide 0 ⟨500, 300, 5000⟩ [10])).2 : ℚ) ≤
      (5000 : ℚ) - 100 :=
  (trim_gesture_invariant 50 0 .startSide ⟨500, 300, 5000⟩ [10]
    (by decide) (by decide) (by norm_num)).1

/-- C2: At most one interaction mode (dragging a clip, trimming a clip,
resizing the panel) is active in every reachable pointer configuration; a
mode can only be entered from idle (in particular, no mousedown that starts
a trim or drag can be delivered while another mode is live), and every mode
returns to idle on pointer release. -/
theorem interaction_modes (c : PointerConfig) (h : Reachable c) :
    modeCount c.st ≤ 1 ∧
    (∀ itemId, legalEvent c (.downDragClip itemId) = true → c.st = idleState) ∧
    (∀ itemId side, legalEvent c (.downTrimHandle itemId side) = true → c.st = idleState) ∧
    (legalEvent c .downResizeHandle = true → c.st = idleState) ∧
    (legalEvent c .up = true → (stepConfig c .up).st = idleState) := by
  obtain ⟨hb, hd, hm⟩ := reachable_configInv h
  refine ⟨hm, ?_, ?_, ?_, ?_⟩
  · intro itemId hl
    simp only [legalEvent, Bool.and_eq_true, Bool.not_eq_true'] at hl
    exact hb hl.1
  · intro itemId side hl
    simp only [legalEvent, Bool.and_eq_true, Bool.not_eq_true'] at hl
    exact hb hl.1
  · intro hl
    simp only [legalEvent, Bool.not_eq_true'] at hl
    exact hb hl
  · intro _
    by_cases hin : c.insideTracks = true
    · simp [stepConfig, hin, idleState]
    · have hin' : c.insideTracks = false := by
        cases hx : c.insideTracks
        · rfl
        · exact absurd hx hin
      have hnone : c.st.draggingItem = none := by
        cases hx : c.st.draggingItem with
        | none => rfl
        | some _ =>
          have := hd (by simp [hx])
          rw [this] at hin'
          exact Bool.noConfusion hin'
      simp [stepConfig, hin', hnone, idleState]

theorem interaction_modes_witness :
    modeCount (stepConfig { st := idleState, buttonDown := false, insideTracks := true }
      (.downDragClip "a")).st ≤ 1 :=
  (interaction_modes _
    (Reachable.step (PointerEvent.downDragClip "a") (Reachable.init true) rfl)).1

/-- C3: On release of a clip drag, exactly one move mutation is issued,
with the new `(start_time_ms, track)` pair as payload, if and only if that
pair differs from the clip committed values; releasing at the original
position issues no mutation. -/
theorem dragEnd_move_mutation (pps : ℚ) (items : List StoryItemDetail)
    (item : StoryItemDetail) (dragPos : ℚ × ℚ)
    (hfind : items.find? (fun i => i.id == item.id) = some item) :
    (dropTimeMs pps dragPos.1 ≠ item.start_time_ms ∨
        dropTrack items dragPos.2 ≠ item.track →
      handleDragEnd pps items (some item.id) dragPos =
        some ⟨dropTimeMs pps dragPos.1, dropTrack items dragPos.2⟩) ∧
    (dropTimeMs pps dragPos.1 = item.start_time_ms ∧
        dropTrack items dragPos.2 = item.track →
      handleDragEnd pps items (some item.id) dragPos = none) := by
  have hunf : handleDragEnd pps items (some item.id) dragPos =
      if dropTimeMs pps dragPos.1 ≠ item.start_time_ms ∨
          dropTrack items dragPos.2 ≠ item.track
      then some ⟨dropTimeMs pps dragPos.1, dropTrack items dragPos.2⟩
      else none := by
    rw [handleDragEnd, hfind]
    rfl
  constructor
  · intro h
    rw [hunf, if_pos h]
  · intro h
    rw [hunf, if_neg]
    push_neg
    exact h

theorem dragEnd_move_mutation_witness :
    handleDragEnd 50 [⟨"a", 0, 1200, 10, 0, 0⟩] (some "a") (250, 100) =
      some ⟨5000, -1⟩ ∧
    handleDragEnd 50 [⟨"a", 0, 1200, 10, 0, 0⟩] (some "a") (60, 50) = none := by
  have htracks : tracksOf [⟨"a", 0, 1200, 10, 0, 0⟩] = [1, 0, -1] := by decide
  have ht1 : dropTimeMs 50 250 = 5000 := by
    norm_num [dropTimeMs, jsRound, pixelsToMs]
  have ht2 : dropTimeMs 50 60 = 1200 := by
    norm_num [dropTimeMs, jsRound, pixelsToMs]
  have hk1 : dropTrack [⟨"a", 0, 1200, 10, 0, 0⟩] 100 = -1 := by
    have hfl : ⌊(100 : ℚ) / TRACK_HEIGHT⌋ = 2 := by norm_num [TRACK_HEIGHT]
    rw [dropTrack, htracks, hfl]
    decide
  have hk2 : dropTrack [⟨"a", 0, 1200, 10, 0, 0⟩] 50 = 0 := by
    have hfl : ⌊(50 : ℚ) / TRACK_HEIGHT⌋ = 1 := by norm_num [TRACK_HEIGHT]
    rw [dropTrack, htracks, hfl]
    decide
  constructor
  · have h := (dragEnd_move_mutation 50 [⟨"a", 0, 1200, 10, 0, 0⟩]
      ⟨"a", 0, 1200, 10, 0, 0⟩ (250, 100) (by decide)).1
      (by rw [show ((250 : ℚ), (100 : ℚ)).1 = 250 from rfl,
            show ((250 : ℚ), (100 : ℚ)).2 = 100 from rfl, ht1, hk1]; decide)
    rw [h]
    rw [show ((250 : ℚ), (100 : ℚ)).1 = 250 from rfl,
      show ((250 : ℚ), (100 : ℚ)).2 = 100 from rfl, ht1, hk1]
  · exact (dragEnd_move_mutation 50 [⟨"a", 0, 1200, 10, 0, 0⟩]
      ⟨"a", 0, 1200, 10, 0, 0⟩ (60, 50) (by decide)).2
      (by rw [show ((60 : ℚ), (50 : ℚ)).1 = 60 from rfl,
            show ((60 : ℚ), (50 : ℚ)).2 = 50 from rfl, ht2, hk2]; exact ⟨rfl, rfl⟩)

/-- C4: Split of the selected clip computes
`splitTimeMs = currentPlayheadMs - clip.start_time_ms`; if that is `≤ 0` or
`≥` the effective duration of the clip it reports a user-visible
invalid-split error and issues no request; otherwise it issues exactly one
split mutation with `split_time_ms` equal to that difference and, on
success, clears the selection. -/
theorem split_behavior (items : List StoryItemDetail) (item : StoryItemDetail)
    (cid : String) (currentTimeMs : ℚ)
    (hfind : items.find? (fun i => i.id == cid) = some item) :
    (currentTimeMs - (item.start_time_ms : ℚ) ≤ 0 ∨
        currentTimeMs - (item.start_time_ms : ℚ) ≥ getEffectiveDuration item →
      handleSplit items (some cid) currentTimeMs = .invalidSplit) ∧
    (0 < currentTimeMs - (item.start_time_ms : ℚ) ∧
        currentTimeMs - (item.start_time_ms : ℚ) < getEffectiveDuration item →
      handleSplit items (some cid) currentTimeMs =
        .request (currentTimeMs - (item.start_time_ms : ℚ)) ∧
      splitOnSuccess (some cid) = none) := by
  have hunf : handleSplit items (some cid) currentTimeMs =
      if currentTimeMs - (item.start_time_ms : ℚ) ≤ 0 ∨
          currentTimeMs - (item.start_time_ms : ℚ) ≥ getEffectiveDuration item
      then .invalidSplit
      else .request (currentTimeMs - (item.start_time_ms : ℚ)) := by
    rw [handleSplit, hfind]
  constructor
  · intro h
    rw [hunf, if_pos h]
  · intro h
    refine ⟨?_, rfl⟩
    rw [hunf, if_neg]
    push_neg
    exact h

theorem split_behavior_witness :
    handleSplit [⟨"a", 0, 2000, 6, 500, 500⟩] (some "a") 4000 = .request 2000 ∧
    handleSplit [⟨"a", 0, 2000, 6, 500, 500⟩] (some "a") 1000 = .invalidSplit := by
  have hed : getEffectiveDuration ⟨"a", 0, 2000, 6, 500, 500⟩ = 5000 := by
    norm_num [getEffectiveDuration]
  constructor
  · have h := (split_behavior [⟨"a", 0, 2000, 6, 500, 500⟩] ⟨"a", 0, 2000, 6, 500, 500⟩
      "a" 4000 (by decide)).2 (by rw [hed]; norm_num)
    exact h.1.trans (by norm_num)
  · exact (split_behavior [⟨"a", 0, 2000, 6, 500, 500⟩] ⟨"a", 0, 2000, 6, 500, 500⟩
      "a" 1000 (by decide)).1 (Or.inl (by norm_num))

/-- C5: Each zoom-in step multiplies `pixelsPerSecond` by 1.5 clamped above
at 200, and each zoom-out step divides it by 1.5 clamped below at 10;
starting from the default 50, three zoom-in steps yield exactly 168.75
(strictly below the clamp), and the clamp to 200 triggers exactly on the
fourth step (the unclamped fourth value would exceed 200). -/
theorem zoom_clamp_steps :
    (∀ pps : ℚ, handleZoomIn pps = min (pps * 1.5) MAX_PIXELS_PER_SECOND ∧
      handleZoomIn pps ≤ MAX_PIXELS_PER_SECOND) ∧
    (∀ pps : ℚ, handleZoomOut pps = max (pps / 1.5) MIN_PIXELS_PER_SECOND ∧
      MIN_PIXELS_PER_SECOND ≤ handleZoomOut pps) ∧
    handleZoomIn (handleZoomIn (handleZoomIn DEFAULT_PIXELS_PER_SECOND)) = 168.75 ∧
    (168.75 : ℚ) = 50 * 1.5 ^ 3 ∧
    (168.75 : ℚ) < MAX_PIXELS_PER_SECOND ∧
    handleZoomIn (handleZoomIn (handleZoomIn (handleZoomIn DEFAULT_PIXELS_PER_SECOND))) =
      MAX_PIXELS_PER_SECOND ∧
    MAX_PIXELS_PER_SECOND < (168.75 : ℚ) * 1.5 := by
  have s1 : handleZoomIn DEFAULT_PIXELS_PER_SECOND = 75 := by
    rw [handleZoomIn, DEFAULT_PIXELS_PER_SECOND, MAX_PIXELS_PER_SECOND]
    norm_num [min_def]
  have s2 : handleZoomIn 75 = 112.5 := by
    rw [handleZoomIn, MAX_PIXELS_PER_SECOND]
    norm_num [min_def]
  have s3 : handleZoomIn 112.5 = 168.75 := by
    rw [handleZoomIn, MAX_PIXELS_PER_SECOND]
    norm_num [min_def]
  have s4 : handleZoomIn 168.75 = 200 := by
    rw [handleZoomIn, MAX_PIXELS_PER_SECOND]
    norm_num [min_def]
  refine ⟨fun pps => ⟨rfl, min_le_right _ _⟩, fun pps => ⟨rfl, le_max_right _ _⟩, ?_, ?_, ?_, ?_, ?_⟩
  · rw [s1, s2, s3]
  · norm_num
  · rw [MAX_PIXELS_PER_SECOND]; norm_num
  · rw [s1, s2, s3, s4, MAX_PIXELS_PER_SECOND]
  · rw [MAX_PIXELS_PER_SECOND]; norm_num

/-- C6: For every value `x` and every `pixelsPerSecond` in the zoom range
`[10, 200]`, `pixelsToMs (msToPixels x) = x` and symmetrically: the two
coordinate mappings are exact inverses of each other (the model uses exact
rational arithmetic, so no floating-point tolerance is needed). -/
theorem ms_pixels_roundtrip (pps x : ℚ)
    (h1 : MIN_PIXELS_PER_SECOND ≤ pps) (h2 : pps ≤ MAX_PIXELS_PER_SECOND) :
    pixelsToMs pps (msToPixels pps x) = x ∧ msToPixels pps (pixelsToMs pps x) = x := by
  have hpos : (0 : ℚ) < pps := lt_of_lt_of_le (by norm_num [MIN_PIXELS_PER_SECOND]) h1
  have hne : pps ≠ 0 := ne_of_gt hpos
  unfold pixelsToMs msToPixels
  constructor
  · field_simp
    ring
  · field_simp
    ring

theorem ms_pixels_roundtrip_witness :
    pixelsToMs 50 (msToPixels 50 1234) = 1234 ∧ msToPixels 50 (pixelsToMs 50 1234) = 1234 :=
  ms_pixels_roundtrip 50 1234 (by norm_num [MIN_PIXELS_PER_SECOND])
    (by norm_num [MAX_PIXELS_PER_SECOND])

/-- C7: During a panel-resize gesture, for every pointer position the editor
height is set to `startHeight + (startY - currentY)` clamped to
`[120, 500]`, so the height never leaves that range, and moving the pointer
down (larger y) never increases the height while moving it up never
decreases it (inverted axis). -/
theorem resize_clamp (startY startHeight oldH y y1 y2 : ℚ) :
    handleResizeMove true startY startHeight y oldH =
      min MAX_EDITOR_HEIGHT (max MIN_EDITOR_HEIGHT (startHeight + (startY - y))) ∧
    MIN_EDITOR_HEIGHT ≤ handleResizeMove true startY startHeight y oldH ∧
    handleResizeMove true startY startHeight y oldH ≤ MAX_EDITOR_HEIGHT ∧
    (y1 ≤ y2 →
      handleResizeMove true startY startHeight y2 oldH ≤
        handleResizeMove true startY startHeight y1 oldH) := by
  refine ⟨rfl, ?_, ?_, ?_⟩
  · simp only [handleResizeMove, if_true]
    exact le_min (by norm_num [MIN_EDITOR_HEIGHT, MAX_EDITOR_HEIGHT]) (le_max_left _ _)
  · simp only [handleResizeMove, if_true]
    exact min_le_left _ _
  · intro hy
    simp only [handleResizeMove, if_true]
    exact min_le_min le_rfl (max_le_max le_rfl (by linarith))

theorem resize_clamp_witness :
    handleResizeMove true 100 300 50 200 ≤ MAX_EDITOR_HEIGHT ∧
    handleResizeMove true 100 300 1 200 ≤ handleResizeMove true 100 300 0 200 :=
  ⟨(resize_clamp 100 300 200 50 0 1).2.2.1,
   (resize_clamp 100 300 200 50 0 1).2.2.2 (by norm_num)⟩

/-- C8: While playing, each run of the auto-scroll step leaves the scroll
offset unchanged when the playhead position is at or left of the viewport
midpoint, and otherwise sets it to `playheadLeft - containerWidth / 2`;
consequently the auto-scroll never decreases the scroll offset. -/
theorem auto_scroll (playing : Bool) (w s pl : ℚ) :
    s ≤ autoScrollStep playing w s pl ∧
    (pl ≤ s + w / 2 → autoScrollStep true w s pl = s) ∧
    (s + w / 2 < pl → autoScrollStep true w s pl = pl - w / 2) := by
  refine ⟨?_, ?_, ?_⟩
  · cases playing with
    | false => exact le_of_eq rfl
    | true =>
      simp only [autoScrollStep, if_true]
      split
      · next h => linarith
      · exact le_rfl
  · intro h
    simp only [autoScrollStep, if_true]
    rw [if_neg (not_lt.mpr h)]
  · intro h
    simp only [autoScrollStep, if_true]
    rw [if_pos h]

theorem auto_scroll_witness :
    autoScrollStep true 100 0 80 = 30 ∧ (0 : ℚ) ≤ autoScrollStep true 100 0 80 :=
  ⟨((auto_scroll true 100 0 80).2.2 (by norm_num)).trans (by norm_num),
   (auto_scroll true 100 0 80).1⟩

/-- C9: Every mutation payload the editor dispatches is well-formed for the
backend integer schema: a committed move mutation carries a non-negative
integer `start_time_ms` (rounded and clamped at 0) and a track drawn from
the current track list, and a committed trim mutation carries non-negative
integer (rounded) `trim_start_ms` and `trim_end_ms`, even though the
pointer positions they derive from are fractional. Integrality is by
construction: the payload fields are `ℤ`, produced by `jsRound`. -/
theorem mutation_payloads_wellformed (pps trimStartX : ℚ) (side : TrimSide)
    (init : TrimInit) (items : List StoryItemDetail) (draggingItem : Option String)
    (dragPos : ℚ × ℚ) (moves : List ℚ)
    (h0 : 0 ≤ init.initialTrimStart) (h1 : 0 ≤ init.initialTrimEnd) :
    (∀ m : MoveMutation, handleDragEnd pps items draggingItem dragPos = some m →
      0 ≤ m.start_time_ms ∧ m.track ∈ tracksOf items) ∧
    (∀ m : TrimMutation,
      handleTrimEnd init (trimGestureTemp pps side trimStartX init moves) = some m →
      0 ≤ m.trim_start_ms ∧ 0 ≤ m.trim_end_ms) := by
  constructor
  · intro m hm
    exact handleDragEnd_payload hm
  · intro m hm
    obtain ⟨p, hp, hs, he⟩ := handleTrimEnd_some hm
    have hq := @trimGestureTemp_tempOK pps trimStartX side init h0 h1 moves p hp
    rw [hs, he]
    exact ⟨hq.1, hq.2.1⟩

theorem mutation_payloads_wellformed_witness :
    0 ≤ (⟨200, 0⟩ : TrimMutation).trim_start_ms ∧
    0 ≤ (⟨200, 0⟩ : TrimMutation).trim_end_ms := by
  have h1 : trimGestureTemp 50 .startSide 0 ⟨0, 0, 10000⟩ [10] = some (200, 0) := by
    show handleTrimMove 50 .startSide 0 ⟨0, 0, 10000⟩ none 10 = some (200, 0)
    simp only [handleTrimMove]
    norm_num [pixelsToMs, jsRound, min_def, max_def]
  have htemp : handleTrimEnd ⟨0, 0, 10000⟩
      (trimGestureTemp 50 .startSide 0 ⟨0, 0, 10000⟩ [10]) = some ⟨200, 0⟩ := by
    rw [h1]
    simp only [handleTrimEnd, Option.map_some', Option.getD_some, jsRound_intCast]
    norm_num
  exact (mutation_payloads_wellformed 50 0 .startSide ⟨0, 0, 10000⟩
    [] (some "a") (0, 0) [10] (by decide) (by decide)).2 ⟨200, 0⟩ htemp

/-- C10: When the clip list for the story is empty, the `StoryTrackEditor`
component renders nothing (returns null); with at least one clip it renders
the editor view. -/
theorem empty_story_renders_nothing (pps cw : ℚ) (items : List StoryItemDetail) :
    (items = [] → storyTrackEditorView pps cw items = none) ∧
    (items ≠ [] → (storyTrackEditorView pps cw items).isSome = true) := by
  constructor
  · intro h
    subst h
    rfl
  · intro h
    rw [storyTrackEditorView, if_neg]
    · rfl
    · simpa [List.length_eq_zero] using h

theorem empty_story_renders_nothing_witness :
    storyTrackEditorView 50 800 [] = none ∧
    (storyTrackEditorView 50 800 [⟨"a", 0, 1200, 10, 0, 0⟩]).isSome = true :=
  ⟨(empty_story_renders_nothing 50 800 []).1 rfl,
   (empty_story_renders_nothing 50 800 [⟨"a", 0, 1200, 10, 0, 0⟩]).2
     (List.cons_ne_nil _ _)⟩

end Voicebox
